import Mathlib

/-!
Shallow embedding of `src/app.py` (single-endpoint fact-checking backend).

Conventions and documented abstractions:
* Python strings are modelled as `List Char`.
* `json.loads` is modelled by `jsonLoads`, mirroring CPython's pure-Python
  scanner on the JSON grammar.  JSON numbers with a fraction or exponent are
  carried as exact rationals (CPython uses IEEE doubles; the rounding of a
  decimal literal to a double is not modelled).  The `NaN`/`Infinity`
  extensions CPython accepts are outside the modelled fragment, as are lone
  UTF-16 surrogates in `\uXXXX` escapes (Lean `Char` cannot hold them).
* Exception MESSAGE text (`str(e)`) is modelled abstractly: the carried
  message names the failure the way CPython's scanner does, but CPython's
  line/column decoration of `JSONDecodeError` is not reproduced.
* Python's `str.strip()` and `int(str)` strip whitespace; the ASCII
  whitespace characters are modelled.
* `repr` of floats (`pyFloatRepr`) is an abstract stand-in; no claim
  exercises it.
-/

/-- Canonical four-field result dictionary built by `clean_and_parse_json`. -/
structure FormattedResult where
  is_correct : Bool
  confidence : Int
  reasoning : List Char
  suggestions : List Char
deriving DecidableEq, Repr

/-- Values produced by `json.loads` (Python `None`/`bool`/`int`/`float`/`str`/`list`/`dict`). -/
inductive Json where
  | jnull
  | jbool (b : Bool)
  | jnum (n : Int)
  | jfloat (q : ℚ)
  | jstr (s : List Char)
  | jarr (xs : List Json)
  | jobj (kvs : List (List Char × Json))

/-- Python exceptions that can escape the steps inside `clean_and_parse_json`'s `try` block. -/
inductive PyExn where
  | jsonDecode (msg : List Char)
  | typeError (msg : List Char)
  | valueError (msg : List Char)
  | attributeError (msg : List Char)
deriving DecidableEq, Repr

/-- Python `str(e)` on the modelled exceptions (message text, see header note). -/
def exnStr : PyExn → List Char
  | .jsonDecode m => m
  | .typeError m => m
  | .valueError m => m
  | .attributeError m => m

/-- The four whitespace characters CPython's json scanner skips. -/
def jsonWsChars : List Char := [' ', '\t', '\n', '\r']

/-- Drops leading JSON whitespace. -/
def jsonSkipWs (l : List Char) : List Char :=
  l.dropWhile (fun c => jsonWsChars.contains c)

/-- Numeric value of a run of decimal digits. -/
def digitsToNat (ds : List Char) : Nat :=
  ds.foldl (fun a c => 10 * a + (c.toNat - 48)) 0

/-- Numeric value of a hex digit, if it is one. -/
def hexVal (c : Char) : Option Nat :=
  if '0' ≤ c && c ≤ '9' then some (c.toNat - 48)
  else if 'a' ≤ c && c ≤ 'f' then some (c.toNat - 87)
  else if 'A' ≤ c && c ≤ 'F' then some (c.toNat - 55)
  else none

/-- The BACKSLASH table of CPython's json scanner: each two-character
escape paired with the character it denotes. -/
def escTable : List (Char × Char) :=
  [('"', '"'), ('\\', '\\'), ('/', '/'), ('b', '\x08'),
   ('f', '\x0c'), ('n', '\n'), ('r', '\r'), ('t', '\t')]

/-- Looks up a single-character JSON string escape (after a backslash). -/
def escMap (c : Char) : Option Char :=
  (escTable.find? (fun p => p.1 == c)).map (fun p => p.2)

/-- Combines four hex digits into their value, if all four are hex digits. -/
def hex4 (a b c d : Char) : Option Nat :=
  match hexVal a, hexVal b, hexVal c, hexVal d with
  | some x, some y, some z, some w => some (((x * 16 + y) * 16 + z) * 16 + w)
  | _, _, _, _ => none

/-- Parses the body of a JSON string after its opening quote, mirroring
CPython's `scanstring` (strict mode: raw control characters rejected,
surrogate pairs in escapes combined). -/
def parseStringRest : Nat → List Char → Except PyExn (List Char × List Char)
  | 0, _ => .error (.jsonDecode "Unterminated string starting at".data)
  | _ + 1, [] => .error (.jsonDecode "Unterminated string starting at".data)
  | _ + 1, '"' :: rest => .ok ([], rest)
  | fuel + 1, '\\' :: 'u' :: a :: b :: c :: d :: rest3 =>
    match hex4 a b c d with
    | none => .error (.jsonDecode "Invalid \\uXXXX escape".data)
    | some n1 =>
      if 0xD800 ≤ n1 && n1 ≤ 0xDBFF then
        match rest3 with
        | '\\' :: 'u' :: a2 :: b2 :: c2 :: d2 :: rest5 =>
          match hex4 a2 b2 c2 d2 with
          | some n2 =>
            if 0xDC00 ≤ n2 && n2 ≤ 0xDFFF then
              match parseStringRest fuel rest5 with
              | .ok (s, r) =>
                .ok (Char.ofNat (0x10000 + (n1 - 0xD800) * 0x400 + (n2 - 0xDC00)) :: s, r)
              | .error err => .error err
            else
              match parseStringRest fuel rest3 with
              | .ok (s, r) => .ok (Char.ofNat n1 :: s, r)
              | .error err => .error err
          | none =>
            match parseStringRest fuel rest3 with
            | .ok (s, r) => .ok (Char.ofNat n1 :: s, r)
            | .error err => .error err
        | _ =>
          match parseStringRest fuel rest3 with
          | .ok (s, r) => .ok (Char.ofNat n1 :: s, r)
          | .error err => .error err
      else
        match parseStringRest fuel rest3 with
        | .ok (s, r) => .ok (Char.ofNat n1 :: s, r)
        | .error err => .error err
  | _ + 1, '\\' :: 'u' :: _ => .error (.jsonDecode "Invalid \\uXXXX escape".data)
  | _ + 1, ['\\'] => .error (.jsonDecode "Unterminated string starting at".data)
  | fuel + 1, '\\' :: e :: rest2 =>
    match escMap e with
    | some ch =>
      match parseStringRest fuel rest2 with
      | .ok (s, r) => .ok (ch :: s, r)
      | .error err => .error err
    | none => .error (.jsonDecode "Invalid \\escape".data)
  | fuel + 1, c :: rest =>
    if c.toNat < 32 then
      .error (.jsonDecode "Invalid control character".data)
    else
      match parseStringRest fuel rest with
      | .ok (s, r) => .ok (c :: s, r)
      | .error err => .error err

/-- Matches a literal keyword tail (for `null`, `true`, `false`). -/
def parseLit (lit : List Char) (l : List Char) : Option (List Char) :=
  if lit.isPrefixOf l then some (l.drop lit.length) else none

/-- Assembles a JSON number once its integer part is read, consuming an
optional fraction and exponent exactly as CPython's NUMBER_RE does.  An
integer literal stays a Python `int`; fraction or exponent makes a float
(carried as an exact rational, see header note). -/
def finishNum (neg : Bool) (ip : Nat) (l : List Char) : Json × List Char :=
  let fr : List Char × List Char :=
    match l with
    | '.' :: r =>
      if (r.headD 'x').isDigit then (r.takeWhile Char.isDigit, r.dropWhile Char.isDigit)
      else ([], l)
    | _ => ([], l)
  let fdigits := fr.1
  let l2 := fr.2
  let ex : Bool × Bool × List Char × List Char :=
    match l2 with
    | e :: r =>
      if e == 'e' || e == 'E' then
        match r with
        | s :: r2 =>
          if s == '+' || s == '-' then
            if (r2.headD 'x').isDigit then
              (true, s == '-', r2.takeWhile Char.isDigit, r2.dropWhile Char.isDigit)
            else (false, false, [], l2)
          else if s.isDigit then
            (true, false, r.takeWhile Char.isDigit, r.dropWhile Char.isDigit)
          else (false, false, [], l2)
        | [] => (false, false, [], l2)
      else (false, false, [], l2)
    | [] => (false, false, [], l2)
  let hasExp := ex.1
  let eneg := ex.2.1
  let edigits := ex.2.2.1
  let l3 := ex.2.2.2
  if fdigits.isEmpty && !hasExp then
    (.jnum (if neg then -(ip : Int) else (ip : Int)), l3)
  else
    let mant : ℚ := (ip : ℚ) + (digitsToNat fdigits : ℚ) / ((10 : ℚ) ^ fdigits.length)
    let expo : ℤ := if eneg then -(digitsToNat edigits : ℤ) else (digitsToNat edigits : ℤ)
    let q : ℚ := (if neg then -mant else mant) * (10 : ℚ) ^ expo
    (.jfloat q, l3)

/-- Parses a JSON number starting at `l` (first char is `-` or a digit). -/
def parseNum (l : List Char) : Except PyExn (Json × List Char) :=
  let sg : Bool × List Char :=
    match l with
    | '-' :: r => (true, r)
    | _ => (false, l)
  let neg := sg.1
  let l1 := sg.2
  match l1 with
  | c :: r =>
    if c == '0' then .ok (finishNum neg 0 r)
    else if c.isDigit then
      .ok (finishNum neg (digitsToNat (l1.takeWhile Char.isDigit)) (l1.dropWhile Char.isDigit))
    else .error (.jsonDecode "Expecting value".data)
  | [] => .error (.jsonDecode "Expecting value".data)

mutual

/-- Parses one JSON value, mirroring CPython's `scan_once`.  `fuel` only
bounds recursion depth; `jsonLoads` supplies more than the input length, so
it never runs out on a real parse. -/
def parseVal : Nat → List Char → Except PyExn (Json × List Char)
  | _, [] => .error (.jsonDecode "Expecting value".data)
  | 0, _ => .error (.jsonDecode "Expecting value".data)
  | fuel + 1, c :: rest =>
    if c == '"' then
      match parseStringRest (rest.length + 1) rest with
      | .ok (s, r) => .ok (.jstr s, r)
      | .error e => .error e
    else if c == '\x7b' then parseObjBody fuel (jsonSkipWs rest)
    else if c == '[' then parseArrBody fuel (jsonSkipWs rest)
    else if c == 'n' then
      match parseLit "ull".data rest with
      | some r => .ok (.jnull, r)
      | none => .error (.jsonDecode "Expecting value".data)
    else if c == 't' then
      match parseLit "rue".data rest with
      | some r => .ok (.jbool true, r)
      | none => .error (.jsonDecode "Expecting value".data)
    else if c == 'f' then
      match parseLit "alse".data rest with
      | some r => .ok (.jbool false, r)
      | none => .error (.jsonDecode "Expecting value".data)
    else if c == '-' || c.isDigit then parseNum (c :: rest)
    else .error (.jsonDecode "Expecting value".data)

/-- Parses an object body just after `\x7b`, leading whitespace skipped. -/
def parseObjBody : Nat → List Char → Except PyExn (Json × List Char)
  | _, [] => .error (.jsonDecode "Expecting property name enclosed in double quotes".data)
  | 0, _ => .error (.jsonDecode "Expecting property name enclosed in double quotes".data)
  | fuel + 1, c :: rest =>
    if c == '\x7d' then .ok (.jobj [], rest)
    else if c == '"' then parseMember fuel [] (c :: rest)
    else .error (.jsonDecode "Expecting property name enclosed in double quotes".data)

/-- Parses one `"key": value` member (l starts at the key's opening quote)
and the object's continuation.  Duplicate keys are all kept in order; lookup
takes the last one, matching Python's dict insertion semantics. -/
def parseMember : Nat → List (List Char × Json) → List Char → Except PyExn (Json × List Char)
  | 0, _, _ => .error (.jsonDecode "Expecting property name enclosed in double quotes".data)
  | fuel + 1, acc, l =>
    match l with
    | '"' :: rest =>
      match parseStringRest (rest.length + 1) rest with
      | .error e => .error e
      | .ok (k, r1) =>
        match jsonSkipWs r1 with
        | ':' :: r2 =>
          match parseVal fuel (jsonSkipWs r2) with
          | .error e => .error e
          | .ok (v, r3) =>
            match jsonSkipWs r3 with
            | '\x7d' :: r4 => .ok (.jobj (acc ++ [(k, v)]), r4)
            | ',' :: r4 =>
              match jsonSkipWs r4 with
              | '"' :: r5 => parseMember fuel (acc ++ [(k, v)]) ('"' :: r5)
              | _ => .error (.jsonDecode "Expecting property name enclosed in double quotes".data)
            | _ => .error (.jsonDecode "Expecting \x27,\x27 delimiter".data)
        | _ => .error (.jsonDecode "Expecting \x27:\x27 delimiter".data)
    | _ => .error (.jsonDecode "Expecting property name enclosed in double quotes".data)

/-- Parses an array body just after `[`, leading whitespace skipped. -/
def parseArrBody : Nat → List Char → Except PyExn (Json × List Char)
  | _, [] => .error (.jsonDecode "Expecting value".data)
  | 0, _ => .error (.jsonDecode "Expecting value".data)
  | fuel + 1, c :: rest =>
    if c == ']' then .ok (.jarr [], rest)
    else parseElems fuel [] (c :: rest)

/-- Parses array elements (l starts at an element) and the continuation. -/
def parseElems : Nat → List Json → List Char → Except PyExn (Json × List Char)
  | 0, _, _ => .error (.jsonDecode "Expecting value".data)
  | fuel + 1, acc, l =>
    match parseVal fuel l with
    | .error e => .error e
    | .ok (v, r1) =>
      match jsonSkipWs r1 with
      | ']' :: r2 => .ok (.jarr (acc ++ [v]), r2)
      | ',' :: r2 => parseElems fuel (acc ++ [v]) (jsonSkipWs r2)
      | _ => .error (.jsonDecode "Expecting \x27,\x27 delimiter".data)

end

/-- Python `json.loads` on the modelled fragment (see header note): one
value, surrounding whitespace allowed, trailing content is `Extra data`. -/
def jsonLoads (l : List Char) : Except PyExn Json :=
  match parseVal (l.length + 1) (jsonSkipWs l) with
  | .error e => .error e
  | .ok (v, rest) =>
    if jsonSkipWs rest = [] then .ok v
    else .error (.jsonDecode "Extra data".data)

/-- The ASCII whitespace characters of Python's `str.strip()` (see header note). -/
def pySpaceChars : List Char := [' ', '\t', '\n', '\r', '\x0b', '\x0c']

/-- Tests whether `str.strip()` removes this character. -/
def pyIsSpace (c : Char) : Bool := pySpaceChars.contains c

/-- Python `text.strip()`. -/
def pyStrip (l : List Char) : List Char :=
  ((l.dropWhile pyIsSpace).reverse.dropWhile pyIsSpace).reverse

/-- Greedy match of the pattern used at `re.search(r'\x7b.*\x7d', cleaned, re.DOTALL)`:
the span from the first opening brace through the last closing brace after it,
or `none` when the pattern does not occur. -/
def braceSpan (l : List Char) : Option (List Char) :=
  if (((l.dropWhile (fun c => c != '\x7b')).reverse.dropWhile (fun c => c != '\x7d')).reverse).isEmpty
  then none
  else some (((l.dropWhile (fun c => c != '\x7b')).reverse.dropWhile (fun c => c != '\x7d')).reverse)

/-- Cleaning steps of `clean_and_parse_json` before `json.loads`: strip
whitespace, strip a leading three-backtick json fence or bare fence, strip a
trailing fence, then narrow to the brace span if one matches. -/
def cleanSteps (s : List Char) : List Char :=
  let c1 := pyStrip s
  let c2 := if ("```json".data).isPrefixOf c1 then c1.drop 7 else c1
  let c3 := if ("```".data).isPrefixOf c2 then c2.drop 3 else c2
  let c4 := if ("```".data).isSuffixOf c3 then c3.take (c3.length - 3) else c3
  match braceSpan c4 with
  | some m => m
  | none => c4

/-- Python `d.get(k)` on a dict decoded from JSON: the value of the LAST
binding of `k` (duplicate keys in the JSON text overwrite in order). -/
def objGet (kvs : List (List Char × Json)) (k : List Char) : Option Json :=
  (kvs.reverse.find? (fun p => p.1 == k)).map (fun p => p.2)

/-- Python truthiness `bool(v)` on JSON-decoded values. -/
def pyBool : Json → Bool
  | .jnull => false
  | .jbool b => b
  | .jnum n => n != 0
  | .jfloat q => q != 0
  | .jstr s => !s.isEmpty
  | .jarr xs => !xs.isEmpty
  | .jobj kvs => !kvs.isEmpty

/-- Checks that a character run is a valid Python integer-literal digit part:
nonempty digits with single underscores only between digits. -/
def pyDigitsRun : List Char → Bool
  | [] => false
  | [c] => c.isDigit
  | c :: d :: rest =>
    if c.isDigit then
      if d == '_' then
        match rest with
        | e :: _ => e.isDigit && pyDigitsRun rest
        | [] => false
      else pyDigitsRun (d :: rest)
    else false

/-- Python `int(s)` on a `str`: optional surrounding whitespace, optional
sign, digits with optional internal underscores; `none` when it raises. -/
def pyIntOfStr (s : List Char) : Option Int :=
  let t := pyStrip s
  let sg : Bool × List Char :=
    match t with
    | '-' :: r => (true, r)
    | '+' :: r => (false, r)
    | _ => (false, t)
  if pyDigitsRun sg.2 then
    let n := digitsToNat (sg.2.filter (fun c => c != '_'))
    some (if sg.1 then -(n : Int) else (n : Int))
  else none

/-- Truncation toward zero, as Python `int(float)` does. -/
def ratTrunc (q : ℚ) : Int := Int.tdiv q.num (q.den : Int)

/-- Python `repr` of a `str`: quote choice and escaping as CPython does for
the modelled character range. -/
def escapeReprChar (q : Char) (c : Char) : List Char :=
  if c == '\\' then ['\\', '\\']
  else if c == q then ['\\', q]
  else if c == '\n' then ['\\', 'n']
  else if c == '\r' then ['\\', 'r']
  else if c == '\t' then ['\\', 't']
  else if c.toNat < 32 || c.toNat == 127 then
    let hi := c.toNat / 16
    let lo := c.toNat % 16
    ['\\', 'x', (Nat.digitChar hi), (Nat.digitChar lo)]
  else [c]

/-- Python `repr(s)` for a string `s`. -/
def pyReprStr (s : List Char) : List Char :=
  let q : Char := if s.contains '\x27' && !(s.contains '"') then '"' else '\x27'
  q :: (s.foldr (fun c acc => escapeReprChar q c ++ acc) [q])

/-- Abstract stand-in for Python's float `repr` (see header note). -/
def pyFloatRepr (q : ℚ) : List Char :=
  (toString q.num).data ++ '/' :: (toString q.den).data

/-- Joins rendered pieces with a comma and space. -/
def joinCommaSp (xs : List (List Char)) : List Char :=
  List.intercalate ", ".data xs

mutual

/-- Python `repr` on JSON-decoded values. -/
def pyRepr : Json → List Char
  | .jnull => "None".data
  | .jbool true => "True".data
  | .jbool false => "False".data
  | .jnum n => (toString n).data
  | .jfloat q => pyFloatRepr q
  | .jstr s => pyReprStr s
  | .jarr xs => '[' :: joinCommaSp (pyReprList xs) ++ [']']
  | .jobj kvs => '\x7b' :: joinCommaSp (pyReprPairs kvs) ++ ['\x7d']

/-- Renders list elements for `pyRepr`. -/
def pyReprList : List Json → List (List Char)
  | [] => []
  | x :: xs => pyRepr x :: pyReprList xs

/-- Renders dict entries for `pyRepr`. -/
def pyReprPairs : List (List Char × Json) → List (List Char)
  | [] => []
  | (k, v) :: rest => (pyReprStr k ++ ':' :: ' ' :: pyRepr v) :: pyReprPairs rest

end

/-- Python `str(v)` on JSON-decoded values: a string is itself, anything
else is its `repr` (`None`/`True`/`False`/digits/containers). -/
def pyStr : Json → List Char
  | .jstr s => s
  | .jnull => "None".data
  | .jbool true => "True".data
  | .jbool false => "False".data
  | .jnum n => (toString n).data
  | .jfloat q => pyFloatRepr q
  | .jarr xs => pyRepr (.jarr xs)
  | .jobj kvs => pyRepr (.jobj kvs)

/-- Name of the Python type of a JSON-decoded value (for exception text). -/
def pyTypeName : Json → List Char
  | .jnull => "NoneType".data
  | .jbool _ => "bool".data
  | .jnum _ => "int".data
  | .jfloat _ => "float".data
  | .jstr _ => "str".data
  | .jarr _ => "list".data
  | .jobj _ => "dict".data

/-- Python `int(v)` on JSON-decoded values: ints unchanged, bools to 0/1,
floats truncated toward zero, numeric strings converted, everything else
raises. -/
def pyInt : Json → Except PyExn Int
  | .jnum n => .ok n
  | .jbool b => .ok (if b then 1 else 0)
  | .jfloat q => .ok (ratTrunc q)
  | .jstr s =>
    match pyIntOfStr s with
    | some n => .ok n
    | none => .error (.valueError ("invalid literal for int() with base 10: ".data ++ pyReprStr s))
  | v => .error (.typeError ("int() argument must be a string, a bytes-like object or a real number, not \x27".data ++ pyTypeName v ++ "\x27".data))

/-- Key-mapping step of `clean_and_parse_json` (building `formatted_result`
from the decoded dict): truthiness of `is_correct` defaulting to false,
`int` of `confidence` defaulting to 50, `str` of `explanation` falling back
to `reasoning` then a fixed default, and `str` of `correction` falling back
to `suggestions` then a fixed default.  Only the `int` conversion can raise. -/
def formatResult (kvs : List (List Char × Json)) : Except PyExn FormattedResult :=
  match pyInt ((objGet kvs "confidence".data).getD (.jnum 50)) with
  | .error e => .error e
  | .ok conf =>
    .ok
      { is_correct := pyBool ((objGet kvs "is_correct".data).getD (.jbool false))
        confidence := conf
        reasoning :=
          pyStr ((objGet kvs "explanation".data).getD
            ((objGet kvs "reasoning".data).getD (.jstr "No reasoning provided.".data)))
        suggestions :=
          pyStr ((objGet kvs "correction".data).getD
            ((objGet kvs "suggestions".data).getD (.jstr "No suggestions provided.".data))) }

/-- Body of the `try` block of `clean_and_parse_json`: clean, `json.loads`,
then map keys.  `result.get` on a decoded non-dict raises `AttributeError`. -/
def clean_and_parse_json_body (s : List Char) : Except PyExn FormattedResult :=
  match jsonLoads (cleanSteps s) with
  | .error e => .error e
  | .ok (.jobj kvs) => formatResult kvs
  | .ok v =>
    .error (.attributeError ("\x27".data ++ pyTypeName v ++ "\x27 object has no attribute \x27get\x27".data))

/-- Default structure returned by `clean_and_parse_json`'s `except` clause. -/
def defaultFor (e : PyExn) (s : List Char) : FormattedResult :=
  { is_correct := false
    confidence := 50
    reasoning := "Could not parse AI response: ".data ++ exnStr e
      ++ ". Raw response: ".data ++ s.take 200 ++ "...".data
    suggestions := "Please try rephrasing your input or try again.".data }

/-- The Response Normalizer `clean_and_parse_json`: try the cleaning,
parsing and mapping steps; on any exception return the default structure. -/
def clean_and_parse_json (s : List Char) : FormattedResult :=
  match clean_and_parse_json_body s with
  | .ok r => r
  | .error e => defaultFor e s

/-- Exception-semantics view of `clean_and_parse_json`: the `try` body may
raise, the `except Exception` clause runs only total operations (string
slicing and formatting), so the function as a whole returns normally. -/
def clean_and_parse_json_exc (s : List Char) : Except PyExn FormattedResult :=
  match clean_and_parse_json_body s with
  | .ok r => .ok r
  | .error e => .ok (defaultFor e s)

/-- Sampling parameters of a `GenerationConfig` (absent fields left to API defaults). -/
structure GenerationConfig where
  temperature : Option ℚ := none
  maxOutputTokens : Option Nat := none
  topP : Option ℚ := none
  topK : Option Nat := none
deriving DecidableEq, Repr

/-- One `generate_content` call issued to the upstream API: the handle's
model name, the content, and the generation config. -/
structure GenCall where
  model : String
  content : List Char
  config : GenerationConfig
deriving DecidableEq, Repr

/-- Config of the selector's minimal probe call: output capped at 10 tokens. -/
def probeGenConfig : GenerationConfig := { maxOutputTokens := some 10 }

/-- Config of the real verification call: temperature 0.1, 1024 tokens,
top-p 0.95, top-k 40. -/
def verifyGenConfig : GenerationConfig :=
  { temperature := some (1 / 10)
    maxOutputTokens := some 1024
    topP := some (19 / 20)
    topK := some 40 }

/-- The probe call `model.generate_content("test", max_output_tokens=10)`. -/
def probeCall (m : String) : GenCall := { model := m, content := "test".data, config := probeGenConfig }

/-- Candidate model identifiers in declared priority order. -/
def model_options : List String :=
  ["gemini-1.5-flash", "gemini-1.5-pro", "gemini-pro", "models/gemini-1.0-pro"]

/-- Fallback loop of `get_gemini_model` over a candidate list, parameterized
by a probe oracle (`probe m = true` iff constructing the handle and the
minimal test call both succeed).  Returns the outcome and the trace of probe
calls issued, in order. -/
def selectLoop (probe : String → Bool) : List String → Except String String × List GenCall
  | [] => (.error "No Gemini models available. Please check your API key and permissions.", [])
  | m :: rest =>
    if probe m then (.ok m, [probeCall m])
    else
      let t := selectLoop probe rest
      (t.1, probeCall m :: t.2)

/-- The Model Selector `get_gemini_model`: try `model_options` in order,
return the first candidate whose probe succeeds, else raise. -/
def get_gemini_model (probe : String → Bool) : Except String String × List GenCall :=
  selectLoop probe model_options

/-- Module-level initialization: `get_gemini_model` under a `try` whose
`except` sets `model = None`. -/
def initModel (probe : String → Bool) : Option String :=
  match (get_gemini_model probe).1 with
  | .ok m => some m
  | .error _ => none

/-- Upstream response as seen by the handler: the usable text if any, and
an abstract `str(response)` rendering for the diagnostic field. -/
structure GenResponse where
  text : Option (List Char)
  reprStr : List Char

/-- Oracles for the remote API inside a `/verify` request: the generation
call (which may raise, carrying `str(e)`), and `genai.list_models` used
best-effort on the upstream-error path. -/
structure VerifyEnv where
  gen : List Char → GenerationConfig → Except (List Char) GenResponse
  listModels : Except (List Char) (List (List Char))

/-- Error/success payloads produced by `verify_input` via `jsonify`. -/
inductive RespBody where
  | err (msg : List Char)
  | errWithSuggestion (msg sugg : List Char)
  | errWithInfo (msg info : List Char)
  | okResp (result : FormattedResult) (modelUsed : List Char)
deriving DecidableEq, Repr

/-- Parse outcome of the request body before validation: content type not
JSON, or the decoded JSON value (`Json.jnull` models a body whose
`get_json()` is `None`). -/
inductive ParsedBody where
  | notJson
  | value (j : Json)

/-- Fixed prompt template of `/verify`, embedding the trimmed input verbatim. -/
def promptFor (u : List Char) : List Char :=
  ("\n        You are a fact-checking assistant. Analyze the following input and determine if it is factually correct, \n        logically sound, and free of errors.\n        \n        Input: ".data)
  ++ u ++
  ("\n        \n        Respond ONLY with a JSON object in this exact format:\n        \x7b\n            \"is_correct\": true/false,\n            \"confidence\": 0-100 (percentage confidence in your assessment),\n            \"reasoning\": \"Brief explanation of your assessment\",\n            \"suggestions\": \"Corrected version or suggestions if needed, otherwise \x27None\x27\"\n        \x7d\n        \n        Rules:\n        - Be concise in your reasoning (max 200 words)\n        - If the input is correct, set suggestions to \"None\"\n        - Confidence should reflect how certain you are (0-100)\n        - Only output the JSON object, no additional text\n        ".data)

/-- Response of the outer catch-all `except Exception` handler of `/verify`. -/
def catchAllResp : Nat × RespBody :=
  (500, .err "An unexpected error occurred. Please try again.".data)

/-- The `/verify` handler `verify_input`, modelled as a function of the
parsed body, the cached model handle and the upstream oracles, returning
the HTTP status with its payload and the trace of generation calls made.
An `input` value that is not a string hits `.strip()` with
`AttributeError`, which only the outer catch-all handles; the same happens
for `json_data.get` on a decoded non-dict body. -/
def verify_input (pb : ParsedBody) (handle : Option String) (env : VerifyEnv) :
    (Nat × RespBody) × List GenCall :=
  match pb with
  | .notJson => ((400, .err "Content-Type must be application/json".data), [])
  | .value .jnull => ((400, .err "Invalid JSON data".data), [])
  | .value (.jobj kvs) =>
    match (objGet kvs "input".data).getD (.jstr []) with
    | .jstr s0 =>
      let u := pyStrip s0
      if u.isEmpty then ((400, .err "No input provided".data), [])
      else if u.length > 5000 then
        ((400, .err "Input too long (max 5000 characters)".data), [])
      else
        match handle with
        | none => ((500, .err "Gemini model not available. Please check server logs.".data), [])
        | some m =>
          let call : GenCall := { model := m, content := promptFor u, config := verifyGenConfig }
          match env.gen (promptFor u) verifyGenConfig with
          | .error emsg =>
            let details :=
              match env.listModels with
              | .ok ms => emsg ++ " | Available models: ".data ++ joinCommaSp (ms.take 3)
              | .error _ => emsg
            ((500, .errWithSuggestion ("Failed to generate content: ".data ++ details)
              ("Try again or contact support if the problem persists".data)), [call])
          | .ok resp =>
            match resp.text with
            | none =>
              ((500, .errWithInfo "No response text received from Gemini API".data resp.reprStr), [call])
            | some t =>
              if t.isEmpty then
                ((500, .errWithInfo "No response text received from Gemini API".data resp.reprStr), [call])
              else
                ((200, .okResp (clean_and_parse_json (pyStrip t)) m.data), [call])
    | _ => (catchAllResp, [])
  | .value _ => (catchAllResp, [])

/-- Concrete oracle environment used to instantiate witnesses. -/
def dummyEnv : VerifyEnv :=
  { gen := fun _ _ => .ok { text := some "ok".data, reprStr := "resp".data }
    listModels := .error "unavailable".data }

/-- Tests whether a decoded JSON value is a Python `str`. -/
def Json.isStr : Json → Bool
  | .jstr _ => true
  | _ => false


lemma formatResult_fields {kvs : List (List Char × Json)} {r : FormattedResult}
    (h : formatResult kvs = .ok r) :
    pyInt ((objGet kvs "confidence".data).getD (.jnum 50)) = .ok r.confidence ∧
    r.is_correct = pyBool ((objGet kvs "is_correct".data).getD (.jbool false)) ∧
    r.reasoning = pyStr ((objGet kvs "explanation".data).getD
      ((objGet kvs "reasoning".data).getD (.jstr "No reasoning provided.".data))) ∧
    r.suggestions = pyStr ((objGet kvs "correction".data).getD
      ((objGet kvs "suggestions".data).getD (.jstr "No suggestions provided.".data))) := by
  unfold formatResult at h
  cases hp : pyInt ((objGet kvs "confidence".data).getD (.jnum 50)) with
  | error e => rw [hp] at h; exact Except.noConfusion h
  | ok conf =>
    rw [hp] at h
    injection h with h2
    subst h2
    exact ⟨rfl, rfl, rfl, rfl⟩

lemma dropWhile_cons_false {p : Char → Bool} {a : Char} {l : List Char} (h : p a = false) :
    (a :: l).dropWhile p = a :: l := by
  simp [List.dropWhile_cons, h]

lemma dropWhile_append_all {p : Char → Bool} {pre l : List Char}
    (h : ∀ c ∈ pre, p c = true) : (pre ++ l).dropWhile p = l.dropWhile p := by
  induction pre with
  | nil => rfl
  | cons a t ih =>
    have ha := h a (by simp)
    have iht := ih (fun c hc => h c (by simp [hc]))
    simp [List.dropWhile_cons, ha, iht]

lemma braceSpan_decomp (pre mid post : List Char)
    (hpre : ∀ c ∈ pre, (c != '\x7b') = true)
    (hpost : ∀ c ∈ post, (c != '\x7d') = true) :
    braceSpan (pre ++ '\x7b' :: (mid ++ '\x7d' :: post)) = some ('\x7b' :: (mid ++ ['\x7d'])) := by
  unfold braceSpan
  rw [dropWhile_append_all hpre, dropWhile_cons_false (by simp)]
  have hrev : ('\x7b' :: (mid ++ '\x7d' :: post)).reverse
      = post.reverse ++ '\x7d' :: (mid.reverse ++ ['\x7b']) := by
    simp
  rw [hrev, dropWhile_append_all (fun c hc => hpost c (List.mem_reverse.mp hc)),
      dropWhile_cons_false (by simp)]
  simp

/-- C1: for every input string the Response Normalizer returns a result and
never raises outward: under exception semantics `clean_and_parse_json`
always returns normally, with the value of the total function. -/
theorem C1_normalizer_never_fails (s : List Char) :
    clean_and_parse_json_exc s = Except.ok (clean_and_parse_json s) := by
  unfold clean_and_parse_json_exc clean_and_parse_json
  cases clean_and_parse_json_body s <;> rfl

/-- C2: whenever a cleaning/parsing/mapping step fails, the normalizer
returns the synthesized default: `is_correct = false`, `confidence = 50`,
a reasoning string naming the failure with a ≤200-character excerpt of the
raw text, and the fixed retry/rephrase suggestion. -/
theorem C2_parse_failure_default (s : List Char) (e : PyExn)
    (h : clean_and_parse_json_body s = .error e) :
    clean_and_parse_json s =
      { is_correct := false
        confidence := 50
        reasoning := "Could not parse AI response: ".data ++ exnStr e
          ++ ". Raw response: ".data ++ s.take 200 ++ "...".data
        suggestions := "Please try rephrasing your input or try again.".data } ∧
    (s.take 200).length ≤ 200 := by
  refine ⟨?_, List.length_take_le 200 s⟩
  unfold clean_and_parse_json
  rw [h]
  rfl

theorem C2_parse_failure_default_witness :
    clean_and_parse_json ("I cannot help with that".data) =
      { is_correct := false
        confidence := 50
        reasoning := "Could not parse AI response: ".data
          ++ exnStr (.jsonDecode "Expecting value".data)
          ++ ". Raw response: ".data ++ ("I cannot help with that".data).take 200 ++ "...".data
        suggestions := "Please try rephrasing your input or try again.".data } ∧
    (("I cannot help with that".data).take 200).length ≤ 200 :=
  C2_parse_failure_default ("I cannot help with that".data) (.jsonDecode "Expecting value".data) rfl

/-- C3: a /verify request whose trimmed input has length in [1, 5000]
passes validation — it is never answered 400 and, when a handle exists, the
generation call is issued — while trimmed length 0 or above 5000 is
rejected with the corresponding 400 validation error before any upstream
call (the call trace is empty). -/
theorem C3_length_validation :
    ∀ (kvs : List (List Char × Json)) (s : List Char) (handle : Option String) (env : VerifyEnv),
      objGet kvs "input".data = some (.jstr s) →
      (pyStrip s ≠ [] → (pyStrip s).length ≤ 5000 →
        (verify_input (.value (.jobj kvs)) handle env).1.1 ≠ 400 ∧
        (∀ m, handle = some m →
          (verify_input (.value (.jobj kvs)) handle env).2 =
            [{ model := m, content := promptFor (pyStrip s), config := verifyGenConfig }])) ∧
      (pyStrip s = [] →
        verify_input (.value (.jobj kvs)) handle env = ((400, .err "No input provided".data), [])) ∧
      ((pyStrip s).length > 5000 →
        verify_input (.value (.jobj kvs)) handle env =
          ((400, .err "Input too long (max 5000 characters)".data), [])) := by
  intro kvs s handle env hIn
  refine ⟨?_, ?_, ?_⟩
  · intro hne hlen
    have hne' : (pyStrip s).isEmpty = false := by
      cases hxs : pyStrip s with
      | nil => exact absurd hxs hne
      | cons a t => rfl
    have hlen' : ¬((pyStrip s).length > 5000) := by omega
    constructor
    · simp only [verify_input]
      rw [hIn]
      simp only [Option.getD_some, hne', hlen', if_false]
      cases handle with
      | none => simp
      | some m =>
        cases hg : env.gen (promptFor (pyStrip s)) verifyGenConfig with
        | error e => simp
        | ok resp =>
          cases ht : resp.text with
          | none => simp [ht]
          | some t =>
            by_cases hte : t = []
            · simp [ht, hte]
            · simp [ht, hte]
    · intro m hm
      subst hm
      simp only [verify_input]
      rw [hIn]
      simp only [Option.getD_some, hne', hlen', if_false]
      cases hg : env.gen (promptFor (pyStrip s)) verifyGenConfig with
      | error e => simp
      | ok resp =>
        cases ht : resp.text with
        | none => simp [ht]
        | some t =>
          by_cases hte : t = []
          · simp [ht, hte]
          · simp [ht, hte]
  · intro hem
    have hne' : (pyStrip s).isEmpty = true := by rw [hem]; rfl
    simp only [verify_input]
    rw [hIn]
    simp [hne']
  · intro hlong
    have hne' : (pyStrip s).isEmpty = false := by
      cases hxs : pyStrip s with
      | nil => rw [hxs] at hlong; simp at hlong
      | cons a t => rfl
    simp only [verify_input]
    rw [hIn]
    simp [hne', hlong]

theorem C3_length_validation_witness :
    ((verify_input (.value (.jobj [("input".data, .jstr " hi ".data)])) (some "gemini-pro")
        dummyEnv).1.1 ≠ 400 ∧
      (verify_input (.value (.jobj [("input".data, .jstr " hi ".data)])) (some "gemini-pro")
          dummyEnv).2 =
        [{ model := "gemini-pro", content := promptFor (pyStrip " hi ".data),
           config := verifyGenConfig }]) ∧
    verify_input (.value (.jobj [("input".data, .jstr "   ".data)])) (some "gemini-pro") dummyEnv =
      ((400, .err "No input provided".data), []) := by
  have g1 :=
    C3_length_validation [("input".data, .jstr " hi ".data)] (" hi ".data) (some "gemini-pro")
      dummyEnv rfl
  have g2 :=
    C3_length_validation [("input".data, .jstr "   ".data)] ("   ".data) (some "gemini-pro")
      dummyEnv rfl
  obtain ⟨ga, gb⟩ := g1.1 (by decide) (by decide)
  exact ⟨⟨ga, gb "gemini-pro" rfl⟩, g2.2.1 (by decide)⟩

/-- C4: on parsed JSON objects the mapping accepts `explanation` as an alias
for `reasoning` and `correction` for `suggestions`, defaults confidence to
50 and is_correct to false when absent, and on the spec's literal clean
input produces exactly the expected four fields. -/
theorem C4_alias_and_defaults :
    clean_and_parse_json
        ("\x7b\"is_correct\": true, \"confidence\": 90, \"explanation\": \"ok\", \"correction\": \"None\"\x7d".data) =
      { is_correct := true, confidence := 90, reasoning := "ok".data, suggestions := "None".data } ∧
    (∀ kvs r, formatResult kvs = .ok r →
      (objGet kvs "confidence".data = none → r.confidence = 50) ∧
      (objGet kvs "is_correct".data = none → r.is_correct = false) ∧
      (∀ v, objGet kvs "explanation".data = some v → r.reasoning = pyStr v) ∧
      (∀ v, objGet kvs "correction".data = some v → r.suggestions = pyStr v)) := by
  constructor
  · rfl
  · intro kvs r h
    obtain ⟨h1, h2, h3, h4⟩ := formatResult_fields h
    refine ⟨?_, ?_, ?_, ?_⟩
    · intro hn
      rw [hn] at h1
      injection h1 with h1'
      exact h1'.symm
    · intro hn
      rw [hn] at h2
      exact h2
    · intro v hv
      rw [hv] at h3
      simpa using h3
    · intro v hv
      rw [hv] at h4
      simpa using h4

theorem C4_alias_and_defaults_witness :
    (({ is_correct := false, confidence := 50, reasoning := "e".data,
        suggestions := "c".data } : FormattedResult).confidence = 50) ∧
    (({ is_correct := false, confidence := 50, reasoning := "e".data,
        suggestions := "c".data } : FormattedResult).is_correct = false) ∧
    (({ is_correct := false, confidence := 50, reasoning := "e".data,
        suggestions := "c".data } : FormattedResult).reasoning = pyStr (.jstr "e".data)) ∧
    (({ is_correct := false, confidence := 50, reasoning := "e".data,
        suggestions := "c".data } : FormattedResult).suggestions = pyStr (.jstr "c".data)) := by
  obtain ⟨g1, g2, g3, g4⟩ :=
    C4_alias_and_defaults.2
      [("explanation".data, .jstr "e".data), ("correction".data, .jstr "c".data)]
      { is_correct := false, confidence := 50, reasoning := "e".data, suggestions := "c".data } rfl
  exact ⟨g1 rfl, g2 rfl, g3 (.jstr "e".data) rfl, g4 (.jstr "c".data) rfl⟩

lemma take_sub_eq_reverse_drop (l : List Char) (k : Nat) :
    l.take (l.length - k) = (l.reverse.drop k).reverse := by
  rw [List.reverse_drop]
  simp

lemma dropWhile_append_barrier {p : Char → Bool} {c : Char} (q r : List Char) (hc : p c = false) :
    (q ++ c :: r).dropWhile p = q.dropWhile p ++ c :: r := by
  induction q with
  | nil => simp [dropWhile_cons_false hc]
  | cons a t ih =>
    cases hpa : p a with
    | true => simp [List.dropWhile_cons, hpa, ih]
    | false => simp [List.dropWhile_cons, hpa]

lemma isPrefixOf_barrier : ∀ (f : List Char) {c : Char} (q r : List Char), c ∉ f →
    f.isPrefixOf (q ++ c :: r) = true →
    f.isPrefixOf q = true ∧ (q ++ c :: r).drop f.length = q.drop f.length ++ c :: r := by
  intro f
  induction f with
  | nil =>
    intro c q r _ _
    exact ⟨by cases q <;> rfl, by simp⟩
  | cons a f' ih =>
    intro c q r hc h
    cases q with
    | nil =>
      simp only [List.nil_append, List.isPrefixOf, Bool.and_eq_true] at h
      have hac : a = c := beq_iff_eq.mp h.1
      subst hac
      exact absurd (List.mem_cons_self a f') hc
    | cons b q' =>
      simp only [List.cons_append, List.isPrefixOf, Bool.and_eq_true] at h
      obtain ⟨hab, h'⟩ := h
      obtain ⟨ih1, ih2⟩ := ih q' r (fun hm => hc (List.mem_cons_of_mem a hm)) h'
      refine ⟨by simp [List.isPrefixOf, hab, ih1], ?_⟩
      simpa [List.drop_succ_cons] using ih2

lemma fence_head_step (f q mid r : List Char) (k : Nat) (hk : f.length = k)
    (hf : '\x7b' ∉ f) (hq : ∀ c ∈ q, c ≠ '\x7b') :
    ∃ q2, (∀ c ∈ q2, c ≠ '\x7b') ∧
      (if f.isPrefixOf (q ++ '\x7b' :: (mid ++ '\x7d' :: r)) then
          (q ++ '\x7b' :: (mid ++ '\x7d' :: r)).drop k
        else q ++ '\x7b' :: (mid ++ '\x7d' :: r))
        = q2 ++ '\x7b' :: (mid ++ '\x7d' :: r) := by
  cases hcond : f.isPrefixOf (q ++ '\x7b' :: (mid ++ '\x7d' :: r)) with
  | false => exact ⟨q, hq, by simp [hcond]⟩
  | true =>
    obtain ⟨_, h2⟩ := isPrefixOf_barrier f q (mid ++ '\x7d' :: r) hf hcond
    rw [hk] at h2
    exact ⟨q.drop k, fun c hcm => hq c (List.drop_subset _ _ hcm), by simp [hcond, h2]⟩

lemma fence_tail_step (mid q r : List Char) (hr : ∀ c ∈ r, c ≠ '\x7d') :
    ∃ r2, (∀ c ∈ r2, c ≠ '\x7d') ∧
      (if ("```".data).isSuffixOf (q ++ '\x7b' :: (mid ++ '\x7d' :: r)) then
          (q ++ '\x7b' :: (mid ++ '\x7d' :: r)).take ((q ++ '\x7b' :: (mid ++ '\x7d' :: r)).length - 3)
        else q ++ '\x7b' :: (mid ++ '\x7d' :: r))
        = q ++ '\x7b' :: (mid ++ '\x7d' :: r2) := by
  cases hcond : ("```".data).isSuffixOf (q ++ '\x7b' :: (mid ++ '\x7d' :: r)) with
  | false => exact ⟨r, hr, by simp [hcond]⟩
  | true =>
    have hcond' : (("```".data).reverse).isPrefixOf ((q ++ '\x7b' :: (mid ++ '\x7d' :: r)).reverse)
        = true := hcond
    have hrev : (q ++ '\x7b' :: (mid ++ '\x7d' :: r)).reverse
        = r.reverse ++ '\x7d' :: (mid.reverse ++ '\x7b' :: q.reverse) := by
      simp
    rw [hrev] at hcond'
    obtain ⟨_, h2⟩ := isPrefixOf_barrier (("```".data).reverse) r.reverse
      (mid.reverse ++ '\x7b' :: q.reverse) (by decide) hcond'
    rw [show (("```".data).reverse).length = 3 from rfl] at h2
    refine ⟨(r.reverse.drop 3).reverse,
      fun c hcm => hr c (List.mem_reverse.mp
        (List.drop_subset _ _ (List.mem_reverse.mp hcm))), ?_⟩
    rw [take_sub_eq_reverse_drop, hrev, h2]
    simp

lemma cleanSteps_decomp (q mid r : List Char)
    (hq : ∀ c ∈ q, c ≠ '\x7b') (hr : ∀ c ∈ r, c ≠ '\x7d') :
    cleanSteps (q ++ '\x7b' :: (mid ++ '\x7d' :: r)) = '\x7b' :: (mid ++ ['\x7d']) := by
  have hstep1 : pyStrip (q ++ '\x7b' :: (mid ++ '\x7d' :: r))
      = q.dropWhile pyIsSpace
        ++ '\x7b' :: (mid ++ '\x7d' :: (r.reverse.dropWhile pyIsSpace).reverse) := by
    unfold pyStrip
    rw [dropWhile_append_barrier q _ rfl]
    have hrev : (q.dropWhile pyIsSpace ++ '\x7b' :: (mid ++ '\x7d' :: r)).reverse
        = r.reverse ++ '\x7d' :: (mid.reverse ++ '\x7b' :: (q.dropWhile pyIsSpace).reverse) := by
      simp
    rw [hrev, dropWhile_append_barrier r.reverse _ rfl]
    simp
  have hq1 : ∀ c ∈ q.dropWhile pyIsSpace, c ≠ '\x7b' :=
    fun c hcm => hq c ((List.dropWhile_sublist _).subset hcm)
  have hr1 : ∀ c ∈ (r.reverse.dropWhile pyIsSpace).reverse, c ≠ '\x7d' :=
    fun c hcm => hr c (List.mem_reverse.mp
      ((List.dropWhile_sublist _).subset (List.mem_reverse.mp hcm)))
  obtain ⟨q2, hq2, hstep2⟩ :=
    fence_head_step ("```json".data) (q.dropWhile pyIsSpace) mid
      ((r.reverse.dropWhile pyIsSpace).reverse) 7 rfl (by decide) hq1
  obtain ⟨q3, hq3, hstep3⟩ :=
    fence_head_step ("```".data) q2 mid ((r.reverse.dropWhile pyIsSpace).reverse) 3 rfl
      (by decide) hq2
  obtain ⟨r4, hr4, hstep4⟩ :=
    fence_tail_step mid q3 ((r.reverse.dropWhile pyIsSpace).reverse) hr1
  have hbs := braceSpan_decomp q3 mid r4
    (fun c hc => bne_iff_ne.mpr (hq3 c hc)) (fun c hc => bne_iff_ne.mpr (hr4 c hc))
  unfold cleanSteps
  simp only [hstep1, hstep2, hstep3, hstep4, hbs]

/-- C5 counterexample: the claim fails as stated for fence-wrapped output
with surrounding text — commentary containing a stray closing brace extends
the greedy first-`\x7b`-to-last-`\x7d` span past the object, `json.loads`
raises Extra data, and the normalizer falls back to the confidence-50
default instead of the bare JSON's mapping (confidence 10). -/
theorem C5_fence_span_cex :
    clean_and_parse_json
        ("```json\n\x7b\"is_correct\": false, \"confidence\": 10, \"reasoning\": \"bad\", \"suggestions\": \"fix it\"\x7d\nNote: see above.\x7d\n```".data)
      ≠ clean_and_parse_json
        ("\x7b\"is_correct\": false, \"confidence\": 10, \"reasoning\": \"bad\", \"suggestions\": \"fix it\"\x7d".data) ∧
    (clean_and_parse_json
        ("```json\n\x7b\"is_correct\": false, \"confidence\": 10, \"reasoning\": \"bad\", \"suggestions\": \"fix it\"\x7d\nNote: see above.\x7d\n```".data)).confidence = 50 ∧
    (clean_and_parse_json
        ("\x7b\"is_correct\": false, \"confidence\": 10, \"reasoning\": \"bad\", \"suggestions\": \"fix it\"\x7d".data)).confidence = 10 :=
  ⟨by decide, rfl, rfl⟩

/-- C5 amended: for an object wrapped in a language-tagged or bare fence,
possibly with surrounding text, the normalizer strips fences and narrows to
the first-`\x7b`-to-last-`\x7d` span; provided the surrounding text has no
`\x7b` before the object and no `\x7d` after it, the narrowed text is
exactly the object, the parse outcome equals the bare JSON's, and any
successful mapping of the bare JSON is also the wrapped text's result
(a stray brace in commentary instead extends the span and the parse falls
back to the default).  The spec's fenced example yields is_correct false
with confidence 10. -/
theorem C5_fence_stripping :
    clean_and_parse_json
        ("```json\n\x7b\"is_correct\": false, \"confidence\": 10, \"reasoning\": \"bad\", \"suggestions\": \"fix it\"\x7d\n```".data) =
      { is_correct := false, confidence := 10, reasoning := "bad".data,
        suggestions := "fix it".data } ∧
    (∀ pre mid post : List Char,
      (∀ c ∈ pre, c ≠ '\x7b') → (∀ c ∈ post, c ≠ '\x7d') →
      cleanSteps (pre ++ ('\x7b' :: (mid ++ ['\x7d'])) ++ post) = '\x7b' :: (mid ++ ['\x7d']) ∧
      clean_and_parse_json_body (pre ++ ('\x7b' :: (mid ++ ['\x7d'])) ++ post)
        = clean_and_parse_json_body ('\x7b' :: (mid ++ ['\x7d'])) ∧
      (∀ res, clean_and_parse_json_body ('\x7b' :: (mid ++ ['\x7d'])) = Except.ok res →
        clean_and_parse_json (pre ++ ('\x7b' :: (mid ++ ['\x7d'])) ++ post) = res ∧
        clean_and_parse_json ('\x7b' :: (mid ++ ['\x7d'])) = res)) := by
  refine ⟨rfl, fun pre mid post hpre hpost => ?_⟩
  have hclean : cleanSteps (pre ++ ('\x7b' :: (mid ++ ['\x7d'])) ++ post)
      = '\x7b' :: (mid ++ ['\x7d']) := by
    rw [show pre ++ ('\x7b' :: (mid ++ ['\x7d'])) ++ post
        = pre ++ '\x7b' :: (mid ++ '\x7d' :: post) from by simp]
    exact cleanSteps_decomp pre mid post hpre hpost
  have hbare : cleanSteps ('\x7b' :: (mid ++ ['\x7d'])) = '\x7b' :: (mid ++ ['\x7d']) := by
    simpa using cleanSteps_decomp [] mid [] (by simp) (by simp)
  have hbody : clean_and_parse_json_body (pre ++ ('\x7b' :: (mid ++ ['\x7d'])) ++ post)
      = clean_and_parse_json_body ('\x7b' :: (mid ++ ['\x7d'])) := by
    unfold clean_and_parse_json_body
    rw [hclean, hbare]
  refine ⟨hclean, hbody, fun res hres => ⟨?_, ?_⟩⟩
  · unfold clean_and_parse_json
    rw [hbody, hres]
  · unfold clean_and_parse_json
    rw [hres]

theorem C5_fence_stripping_witness :
    cleanSteps ("Sure, here is my verdict:\n```json\n".data
        ++ ('\x7b' :: ("\"confidence\": 10".data ++ ['\x7d'])) ++ "\n```\nI hope this helps.".data)
      = '\x7b' :: ("\"confidence\": 10".data ++ ['\x7d']) ∧
    clean_and_parse_json ("Sure, here is my verdict:\n```json\n".data
        ++ ('\x7b' :: ("\"confidence\": 10".data ++ ['\x7d'])) ++ "\n```\nI hope this helps.".data)
      = { is_correct := false, confidence := 10,
          reasoning := "No reasoning provided.".data,
          suggestions := "No suggestions provided.".data } ∧
    clean_and_parse_json ('\x7b' :: ("\"confidence\": 10".data ++ ['\x7d']))
      = { is_correct := false, confidence := 10,
          reasoning := "No reasoning provided.".data,
          suggestions := "No suggestions provided.".data } := by
  obtain ⟨h1, _, h3⟩ :=
    C5_fence_stripping.2 ("Sure, here is my verdict:\n```json\n".data)
      ("\"confidence\": 10".data) ("\n```\nI hope this helps.".data) (by decide) (by decide)
  obtain ⟨h4, h5⟩ := h3
    { is_correct := false, confidence := 10,
      reasoning := "No reasoning provided.".data,
      suggestions := "No suggestions provided.".data } rfl
  exact ⟨h1, h4, h5⟩

/-- C6: the Model Selector returns the first candidate whose probe succeeds
(general ordering property over any candidate list), and on the declared
list with only the third candidate succeeding it probes exactly the first
three candidates in order — each with content "test" capped at 10 output
tokens — and the active handle is the third identifier. -/
theorem C6_selector_first_success :
    (∀ (probe : String → Bool) (l : List String) (m : String),
        l.find? probe = some m → (selectLoop probe l).1 = .ok m) ∧
    (∀ probe : String → Bool,
        probe "gemini-1.5-flash" = false → probe "gemini-1.5-pro" = false →
        probe "gemini-pro" = true →
        get_gemini_model probe =
          (.ok "gemini-pro",
           [probeCall "gemini-1.5-flash", probeCall "gemini-1.5-pro", probeCall "gemini-pro"])) := by
  constructor
  · intro probe l m h
    induction l with
    | nil => exact Option.noConfusion h
    | cons a t ih =>
      rw [List.find?_cons] at h
      cases hp : probe a with
      | true =>
        rw [hp] at h
        injection h with h2
        subst h2
        simp [selectLoop, hp]
      | false =>
        rw [hp] at h
        simp [selectLoop, hp, ih h]
  · intro probe h1 h2 h3
    unfold get_gemini_model model_options
    simp [selectLoop, h1, h2, h3]

theorem C6_selector_first_success_witness :
    get_gemini_model (fun m => m == "gemini-pro") =
      (.ok "gemini-pro",
       [probeCall "gemini-1.5-flash", probeCall "gemini-1.5-pro", probeCall "gemini-pro"]) :=
  C6_selector_first_success.2 (fun m => m == "gemini-pro") rfl rfl rfl

/-- C7: when every candidate fails its probe the selector yields handle =
none (the start-up `except` absorbs the raised failure), and in that
no-handle state any /verify request that passes validation is answered with
the 500 ServiceUnavailable message and no generation call is made — the
selection is not retried. -/
theorem C7_no_handle_service_unavailable :
    ∀ probe : String → Bool, (∀ m ∈ model_options, probe m = false) →
      initModel probe = none ∧
      (∀ (kvs : List (List Char × Json)) (s : List Char) (env : VerifyEnv),
        objGet kvs "input".data = some (.jstr s) →
        pyStrip s ≠ [] → (pyStrip s).length ≤ 5000 →
        verify_input (.value (.jobj kvs)) (initModel probe) env =
          ((500, .err "Gemini model not available. Please check server logs.".data), [])) := by
  intro probe hall
  have h1 := hall "gemini-1.5-flash" (by decide)
  have h2 := hall "gemini-1.5-pro" (by decide)
  have h3 := hall "gemini-pro" (by decide)
  have h4 := hall "models/gemini-1.0-pro" (by decide)
  have hnone : initModel probe = none := by
    unfold initModel get_gemini_model model_options
    simp [selectLoop, h1, h2, h3, h4]
  refine ⟨hnone, ?_⟩
  intro kvs s env hIn hne hlen
  have hne' : (pyStrip s).isEmpty = false := by
    cases hxs : pyStrip s with
    | nil => exact absurd hxs hne
    | cons a t => rfl
  have hlen' : ¬((pyStrip s).length > 5000) := by omega
  rw [hnone]
  simp only [verify_input]
  rw [hIn]
  simp only [Option.getD_some]
  simp [hne', hlen']

theorem C7_no_handle_service_unavailable_witness :
    initModel (fun _ => false) = none ∧
    verify_input (.value (.jobj [("input".data, .jstr "hi".data)])) (initModel (fun _ => false))
        dummyEnv =
      ((500, .err "Gemini model not available. Please check server logs.".data), []) :=
  ⟨(C7_no_handle_service_unavailable (fun _ => false) (fun _ _ => rfl)).1,
   (C7_no_handle_service_unavailable (fun _ => false) (fun _ _ => rfl)).2
     [("input".data, .jstr "hi".data)] ("hi".data) dummyEnv rfl (by decide) (by decide)⟩

/-- C8 counterexample: the claim that every produced confidence lies in
[0, 100] fails at the concrete parsed object with confidence 150 — the
mapping applies `int()` without clamping. -/
theorem C8_confidence_range_cex :
    (clean_and_parse_json ("\x7b\"confidence\": 150\x7d".data)).confidence = 150 ∧
    ¬((clean_and_parse_json ("\x7b\"confidence\": 150\x7d".data)).confidence ≤ 100) :=
  ⟨rfl, by decide⟩

/-- C8 amended: the confidence field is an integer equal to 50 on any parse
failure or when the key is absent, and otherwise exactly `int()` of the
parsed confidence value, with no clamping to [0, 100]. -/
theorem C8_confidence_unclamped :
    (∀ s e, clean_and_parse_json_body s = .error e → (clean_and_parse_json s).confidence = 50) ∧
    (∀ kvs r, formatResult kvs = .ok r →
      (objGet kvs "confidence".data = none → r.confidence = 50) ∧
      (∀ v, objGet kvs "confidence".data = some v → pyInt v = .ok r.confidence)) := by
  constructor
  · intro s e h
    unfold clean_and_parse_json
    rw [h]
    rfl
  · intro kvs r h
    have h1 := (formatResult_fields h).1
    constructor
    · intro hn
      rw [hn] at h1
      injection h1 with h2
      exact h2.symm
    · intro v hv
      rw [hv] at h1
      simp only [Option.getD_some] at h1
      exact h1

theorem C8_confidence_unclamped_witness :
    (clean_and_parse_json ("not json at all".data)).confidence = 50 ∧
    pyInt (.jnum 150) =
      .ok (({ is_correct := false, confidence := 150,
              reasoning := "No reasoning provided.".data,
              suggestions := "No suggestions provided.".data } : FormattedResult).confidence) :=
  ⟨C8_confidence_unclamped.1 ("not json at all".data) (.jsonDecode "Expecting value".data) rfl,
   (C8_confidence_unclamped.2 [("confidence".data, .jnum 150)]
      { is_correct := false, confidence := 150,
        reasoning := "No reasoning provided.".data,
        suggestions := "No suggestions provided.".data } rfl).2 (.jnum 150) rfl⟩

/-- C9: a well-formed JSON object body whose `input` value is present but
not a string escapes validation (`.strip()` raises `AttributeError`) and is
answered by the outer catch-all with the generic 500 response, not a 400. -/
theorem C9_nonstring_input_500 :
    ∀ (kvs : List (List Char × Json)) (v : Json) (handle : Option String) (env : VerifyEnv),
      objGet kvs "input".data = some v → Json.isStr v = false →
      verify_input (.value (.jobj kvs)) handle env =
        ((500, .err "An unexpected error occurred. Please try again.".data), []) := by
  intro kvs v handle env hIn hv
  simp only [verify_input]
  rw [hIn]
  cases v with
  | jstr s => simp [Json.isStr] at hv
  | jnull => rfl
  | jbool b => rfl
  | jnum n => rfl
  | jfloat q => rfl
  | jarr xs => rfl
  | jobj o => rfl

theorem C9_nonstring_input_500_witness :
    verify_input (.value (.jobj [("input".data, .jnum 5)])) none dummyEnv =
      ((500, .err "An unexpected error occurred. Please try again.".data), []) :=
  C9_nonstring_input_500 [("input".data, .jnum 5)] (.jnum 5) none dummyEnv rfl rfl

/-- C10: in the key mapping the alias keys win — with both `explanation`
and `reasoning` present the output reasoning is the `explanation` value,
with both `correction` and `suggestions` present the output suggestions is
the `correction` value — and with neither key of a pair present the fixed
defaults "No reasoning provided." and "No suggestions provided." are used. -/
theorem C10_alias_precedence :
    ∀ kvs r, formatResult kvs = .ok r →
      (∀ v w, objGet kvs "explanation".data = some v → objGet kvs "reasoning".data = some w →
        r.reasoning = pyStr v) ∧
      (∀ v w, objGet kvs "correction".data = some v → objGet kvs "suggestions".data = some w →
        r.suggestions = pyStr v) ∧
      (objGet kvs "explanation".data = none → objGet kvs "reasoning".data = none →
        r.reasoning = "No reasoning provided.".data) ∧
      (objGet kvs "correction".data = none → objGet kvs "suggestions".data = none →
        r.suggestions = "No suggestions provided.".data) := by
  intro kvs r h
  obtain ⟨_, _, h3, h4⟩ := formatResult_fields h
  refine ⟨?_, ?_, ?_, ?_⟩
  · intro v w hv _
    rw [hv] at h3
    simpa using h3
  · intro v w hv _
    rw [hv] at h4
    simpa using h4
  · intro hn1 hn2
    rw [hn1, hn2] at h3
    simpa using h3
  · intro hn1 hn2
    rw [hn1, hn2] at h4
    simpa using h4

theorem C10_alias_precedence_witness :
    (({ is_correct := false, confidence := 50, reasoning := "a".data,
        suggestions := "c".data } : FormattedResult).reasoning = pyStr (.jstr "a".data)) ∧
    (({ is_correct := false, confidence := 50, reasoning := "a".data,
        suggestions := "c".data } : FormattedResult).suggestions = pyStr (.jstr "c".data)) := by
  obtain ⟨g1, g2, _, _⟩ :=
    C10_alias_precedence
      [("explanation".data, .jstr "a".data), ("reasoning".data, .jstr "b".data),
       ("correction".data, .jstr "c".data), ("suggestions".data, .jstr "d".data)]
      { is_correct := false, confidence := 50, reasoning := "a".data, suggestions := "c".data } rfl
  exact ⟨g1 (.jstr "a".data) (.jstr "b".data) rfl rfl, g2 (.jstr "c".data) (.jstr "d".data) rfl rfl⟩

